import Mathlib

/-!
Verification of the work-queue coordination layer of the dataViz pipeline
(`src/db/db_utils.py`): the SQLite-backed store, its schema migration
(`create_tables`), and the claim/complete protocol
(`get_and_lock_city_for_download`, `mark_city_download_complete`,
`insert_image_records_batch`, `claim_batch_for_analysis`,
`mark_batch_analysis_complete`, `claim_detections_for_analysis`,
`mark_clothing_analysis_complete`).

The store is embedded shallowly: each table is a list of row records in
rowid order (SQLite reads without ORDER BY are modelled as table order),
an UPDATE ... WHERE id IN (...) is a map over the list, a SELECT with a
WHERE clause is a filter, and AUTOINCREMENT primary keys are explicit
counters.  Timestamp columns (`created_at`, `downloaded_at`, ...) carry no
claim-relevant content and are not modelled.  A transaction body that
raises (e.g. a lock-wait timeout) is modelled by the `with conn:` context
manager's semantics: all writes of the failed transaction are discarded
and the surrounding `except` handler turns the exception into the
function's fallback return value.
-/

namespace PipelineDB

/-- One row of the `cities` table (schema in `create_tables`); the
`search_term` and timestamp columns are omitted as no claim concerns them. -/
structure CityRow where
  id : Nat
  name : String
  bbox : Option String
  population : Int
  download_status : String
  analysis_status : String
deriving DecidableEq, Repr

/-- One row of the `mapillary_images` table. -/
structure ImageRow where
  id : Nat
  image_id : Int
  city_id : Option Nat
  captured_at : Option String
  location : Option String
  file_path : Option String
  processing_status : String
deriving DecidableEq, Repr

/-- One row of the `mapillary_detections` table (timestamp column omitted). -/
structure DetectionRow where
  id : Nat
  city_id : Option Nat
  original_image_id : Option Int
  confidence : Option Int
  bounding_box_detection : Option String
  crop_path : Option String
  clothing_status : String
deriving DecidableEq, Repr

/-- The durable state of the store: the three claim-relevant tables in
rowid order plus the AUTOINCREMENT counters for their primary keys. -/
structure Store where
  cities : List CityRow
  images : List ImageRow
  detections : List DetectionRow
  nextImageId : Nat
  nextDetId : Nat
deriving DecidableEq, Repr

/-- Status of the image row with primary key `i` (`none` when no such row). -/
def imgStatus (s : Store) (i : Nat) : Option String :=
  (s.images.find? (fun r => r.id == i)).map (fun r => r.processing_status)

/-- Status of the detection row with primary key `i`. -/
def detStatus (s : Store) (i : Nat) : Option String :=
  (s.detections.find? (fun r => r.id == i)).map (fun r => r.clothing_status)

/-- The `download_status` of the city with primary key `i`. -/
def cityDlStatus (s : Store) (i : Nat) : Option String :=
  (s.cities.find? (fun r => r.id == i)).map (fun r => r.download_status)

/-- The `analysis_status` of the city with primary key `i`. -/
def cityAnStatus (s : Store) (i : Nat) : Option String :=
  (s.cities.find? (fun r => r.id == i)).map (fun r => r.analysis_status)

/-! ### A model of `json.loads`

`get_and_lock_city_for_download` runs `json.loads(city['bbox'])` inside
the claim transaction.  The repository stores bounding boxes as
float-valued JSON objects (`cities_generator.py` writes
`json.dumps` of a west/south/east/north dict), so the model is a full
JSON parser: objects, arrays, strings with escapes, numbers with
fraction and exponent parts, `true`/`false`/`null`, plus the
`NaN`/`Infinity`/`-Infinity` extensions Python's `json.loads` accepts by
default.  Number and string lexemes are kept verbatim — no claim
inspects numeric values, only parse success or failure and the parsed
structure matter.  An input outside the grammar fails, standing for the
`json.JSONDecodeError` raised by Python. -/

/-- A parsed JSON value; numbers carry their lexeme, strings their raw
(still-escaped) content characters. -/
inductive JsonVal where
  | jnull
  | jbool (b : Bool)
  | jnum (lexeme : List Char)
  | jstr (content : List Char)
  | jarr (items : List JsonVal)
  | jobj (fields : List (List Char × JsonVal))

/-- JSON insignificant whitespace. -/
def isJsonWs (c : Char) : Bool :=
  c = ' ' || c = '\t' || c = '\n' || c = '\r'

/-- Drop leading JSON whitespace. -/
def skipWs : List Char → List Char
  | c :: rest => if isJsonWs c then skipWs rest else c :: rest
  | [] => []

/-- Split a leading run of decimal digits from the rest. -/
def takeDigits : List Char → List Char × List Char
  | [] => ([], [])
  | c :: rest =>
    if c.isDigit then
      let p := takeDigits rest
      (c :: p.1, p.2)
    else ([], c :: rest)

/-- Hexadecimal digit, for `\u` escapes. -/
def isHexDigit (c : Char) : Bool :=
  c.isDigit || ('a' ≤ c && c ≤ 'f') || ('A' ≤ c && c ≤ 'F')

/-- The body of a JSON string after its opening quote: content up to the
closing quote.  Escapes are validated and kept verbatim; raw control
characters are rejected, as `json.loads` does in its default strict
mode. -/
def parseStringBody : List Char → Option (List Char × List Char)
  | [] => none
  | '"' :: rest => some ([], rest)
  | '\\' :: e :: rest =>
    if e = '"' || e = '\\' || e = '/' || e = 'b' || e = 'f' || e = 'n'
        || e = 'r' || e = 't' then
      match parseStringBody rest with
      | none => none
      | some (content, r2) => some ('\\' :: e :: content, r2)
    else if e = 'u' then
      match rest with
      | h1 :: h2 :: h3 :: h4 :: rest2 =>
        if isHexDigit h1 && isHexDigit h2 && isHexDigit h3 && isHexDigit h4 then
          match parseStringBody rest2 with
          | none => none
          | some (content, r2) =>
            some ('\\' :: 'u' :: h1 :: h2 :: h3 :: h4 :: content, r2)
        else none
      | _ => none
    else none
  | c :: rest =>
    if c.toNat < 32 then none
    else
      match parseStringBody rest with
      | none => none
      | some (content, r2) => some (c :: content, r2)

/-- The integer part of a JSON number: `0`, or a nonzero digit followed
by digits — a leading zero before another digit is rejected. -/
def parseIntPart : List Char → Option (List Char × List Char)
  | [] => none
  | c :: rest =>
    if c = '0' then
      match rest with
      | d :: _ => if d.isDigit then none else some (['0'], rest)
      | [] => some (['0'], [])
    else if c.isDigit then
      let p := takeDigits rest
      some (c :: p.1, p.2)
    else none

/-- The optional fraction part: `.` followed by at least one digit. -/
def parseFracPart : List Char → Option (List Char × List Char)
  | '.' :: rest =>
    let p := takeDigits rest
    if p.1 = [] then none else some ('.' :: p.1, p.2)
  | cs => some ([], cs)

/-- The optional exponent part: `e`/`E`, optional sign, digits. -/
def parseExpPart : List Char → Option (List Char × List Char)
  | [] => some ([], [])
  | c :: rest =>
    if c = 'e' || c = 'E' then
      match rest with
      | [] => none
      | s :: rest2 =>
        if s = '+' || s = '-' then
          let p := takeDigits rest2
          if p.1 = [] then none else some (c :: s :: p.1, p.2)
        else
          let p := takeDigits rest
          if p.1 = [] then none else some (c :: p.1, p.2)
    else some ([], c :: rest)

/-- An unsigned numeral: integer part, optional fraction, optional
exponent, the lexeme returned verbatim. -/
def parseUnsignedNum (cs : List Char) : Option (List Char × List Char) :=
  match parseIntPart cs with
  | none => none
  | some (ip, r1) =>
    match parseFracPart r1 with
    | none => none
    | some (fp, r2) =>
      match parseExpPart r2 with
      | none => none
      | some (ep, r3) => some (ip ++ fp ++ ep, r3)

/-- A JSON number token, including Python's `NaN`, `Infinity` and
`-Infinity` extensions. -/
def parseNumber : List Char → Option (JsonVal × List Char)
  | 'N' :: 'a' :: 'N' :: r => some (JsonVal.jnum ['N', 'a', 'N'], r)
  | 'I' :: 'n' :: 'f' :: 'i' :: 'n' :: 'i' :: 't' :: 'y' :: r =>
    some (JsonVal.jnum "Infinity".toList, r)
  | '-' :: 'I' :: 'n' :: 'f' :: 'i' :: 'n' :: 'i' :: 't' :: 'y' :: r =>
    some (JsonVal.jnum "-Infinity".toList, r)
  | '-' :: rest =>
    match parseUnsignedNum rest with
    | none => none
    | some (lex, r) => some (JsonVal.jnum ('-' :: lex), r)
  | cs =>
    match parseUnsignedNum cs with
    | none => none
    | some (lex, r) => some (JsonVal.jnum lex, r)

mutual

/-- One JSON value, leading whitespace allowed; fuelled recursion, the
top level supplies fuel beyond any need of the input. -/
def parseJsonValue : Nat → List Char → Option (JsonVal × List Char)
  | 0, _ => none
  | fuel + 1, cs =>
    match skipWs cs with
    | '\x7b' :: r =>
      match skipWs r with
      | '\x7d' :: r2 => some (JsonVal.jobj [], r2)
      | _ =>
        match parseObjectItems fuel r with
        | none => none
        | some (fs, r2) => some (JsonVal.jobj fs, r2)
    | '[' :: r =>
      match skipWs r with
      | ']' :: r2 => some (JsonVal.jarr [], r2)
      | _ =>
        match parseArrayItems fuel r with
        | none => none
        | some (vs, r2) => some (JsonVal.jarr vs, r2)
    | '"' :: r =>
      match parseStringBody r with
      | none => none
      | some (content, r2) => some (JsonVal.jstr content, r2)
    | 't' :: 'r' :: 'u' :: 'e' :: r => some (JsonVal.jbool true, r)
    | 'f' :: 'a' :: 'l' :: 's' :: 'e' :: r => some (JsonVal.jbool false, r)
    | 'n' :: 'u' :: 'l' :: 'l' :: r => some (JsonVal.jnull, r)
    | r => parseNumber r

/-- One or more comma-separated array items up to the closing bracket. -/
def parseArrayItems : Nat → List Char → Option (List JsonVal × List Char)
  | 0, _ => none
  | fuel + 1, cs =>
    match parseJsonValue fuel cs with
    | none => none
    | some (v, r) =>
      match skipWs r with
      | ',' :: r2 =>
        match parseArrayItems fuel r2 with
        | none => none
        | some (vs, r3) => some (v :: vs, r3)
      | ']' :: r2 => some ([v], r2)
      | _ => none

/-- One or more comma-separated `"key": value` members up to the closing
brace. -/
def parseObjectItems : Nat → List Char →
    Option (List (List Char × JsonVal) × List Char)
  | 0, _ => none
  | fuel + 1, cs =>
    match skipWs cs with
    | '"' :: r =>
      match parseStringBody r with
      | none => none
      | some (key, r2) =>
        match skipWs r2 with
        | ':' :: r3 =>
          match parseJsonValue fuel r3 with
          | none => none
          | some (v, r4) =>
            match skipWs r4 with
            | ',' :: r5 =>
              match parseObjectItems fuel r5 with
              | none => none
              | some (fs, r6) => some ((key, v) :: fs, r6)
            | '\x7d' :: r5 => some ([(key, v)], r5)
            | _ => none
        | _ => none
    | _ => none

end

/-- Model of `json.loads`: parse one JSON value and require only
whitespace after it; any other input fails.  The fuel `2 * length + 8`
exceeds the two recursive calls ever spent per consumed character. -/
def parseJson (s : String) : Option JsonVal :=
  match parseJsonValue (2 * s.length + 8) s.toList with
  | none => none
  | some (v, r) => if skipWs r = [] then some v else none

/-- The bbox handling of `get_and_lock_city_for_download`:
`if city['bbox']:` skips the parse when the column is NULL or the empty
string (both falsy in Python); otherwise `json.loads` runs and a parse
failure raises, aborting the claim transaction. -/
def loadBbox : Option String → Option (Option JsonVal)
  | none => some none
  | some str =>
    if str = "" then some none else (parseJson str).map some

/-! ### City single-flight claim (producer side) -/

/-- Embeds `ORDER BY population DESC LIMIT 1` over `download_status = 'pending'`
rows: the leftmost pending city of maximal population (SQLite leaves the
order among equal keys unspecified; the model picks the first in table
order). -/
def pickMaxPop (acc : Option CityRow) (c : CityRow) : Option CityRow :=
  match acc with
  | none => some c
  | some b => if b.population < c.population then some c else some b

def selectTopPendingCity (cities : List CityRow) : Option CityRow :=
  (cities.filter (fun c => c.download_status == "pending")).foldl pickMaxPop none

/-- The record `get_and_lock_city_for_download` hands back to its caller:
the selected row's columns with the bbox replaced by its parsed value
(`none` when the stored bbox was falsy and the parse was skipped). -/
structure ClaimedCity where
  id : Nat
  name : String
  bbox : Option JsonVal
  population : Int

/-- Embeds `get_and_lock_city_for_download`: inside one immediate transaction,
select the top-priority pending city, parse its bbox, flip its
`download_status` to `'processing'` and return it.  No pending city, or
an exception (in particular a bbox that `json.loads` rejects), returns
`None` with the transaction rolled back — the store is unchanged. -/
def get_and_lock_city_for_download (s : Store) : Option ClaimedCity × Store :=
  match selectTopPendingCity s.cities with
  | none => (none, s)
  | some c =>
    match loadBbox c.bbox with
    | none => (none, s)
    | some bb =>
      (some ⟨c.id, c.name, bb, c.population⟩,
       { s with cities := s.cities.map (fun r =>
           if r.id = c.id then { r with download_status := "processing" } else r) })

/-- Embeds `mark_city_download_complete`: `UPDATE cities SET download_status =
'done' WHERE id = ?` (the `downloaded_at` timestamp is not modelled). -/
def mark_city_download_complete (s : Store) (city_id : Nat) : Store :=
  { s with cities := s.cities.map (fun r =>
      if r.id = city_id then { r with download_status := "done" } else r) }

/-! ### Image insertion (producer side) -/

/-- The dict handed to `insert_image_records_batch` for one image. -/
structure ImageRecord where
  image_id : Int
  city_id : Option Nat
  captured_at : Option String
  location : Option String
  file_path : Option String
deriving DecidableEq, Repr

/-- One `INSERT ... ON CONFLICT(image_id) DO NOTHING` with
`processing_status = 'pending'`: a record whose natural key already
exists in the table is dropped, otherwise a fresh row is appended under
the next AUTOINCREMENT id. -/
def insertOneImage (images : List ImageRow) (nid : Nat) (r : ImageRecord) :
    List ImageRow × Nat :=
  if images.any (fun row => row.image_id == r.image_id) then (images, nid)
  else
    (images ++ [⟨nid, r.image_id, r.city_id, r.captured_at, r.location,
                r.file_path, "pending"⟩], nid + 1)

/-- Embeds `insert_image_records_batch`: `executemany` runs the insert for each
record in order within one transaction; an empty batch returns at once. -/
def insert_image_records_batch (s : Store) (records : List ImageRecord) : Store :=
  if records = [] then s
  else
    let p := records.foldl (fun acc r => insertOneImage acc.1 acc.2 r)
      (s.images, s.nextImageId)
    { s with images := p.1, nextImageId := p.2 }

/-! ### Image batch claim/complete (detector side) -/

/-- The `SELECT id FROM mapillary_images WHERE processing_status =
'pending' LIMIT batch_size` step of `claim_batch_for_analysis`. -/
def pendingImageRows (s : Store) (batch_size : Nat) : List ImageRow :=
  (s.images.filter (fun r => r.processing_status == "pending")).take batch_size

/-- Embeds `claim_batch_for_analysis`: in one immediate transaction, select up to
`batch_size` pending image ids, `UPDATE` them to `'processing'`, and
re-select the full rows for those ids, returning them with the committed
state.  Zero matches return `[]` with the store unchanged. -/
def claim_batch_for_analysis (s : Store) (batch_size : Nat) :
    List ImageRow × Store :=
  let rows := pendingImageRows s batch_size
  if rows = [] then ([], s)
  else
    let ids : List Nat := rows.map (fun r => r.id)
    let images2 := s.images.map (fun r =>
      if r.id ∈ ids then { r with processing_status := "processing" } else r)
    (images2.filter (fun r => r.id ∈ ids), { s with images := images2 })

/-- Embeds `mark_batch_analysis_complete`: empty id list returns immediately;
otherwise `UPDATE mapillary_images SET processing_status = 'completed'
WHERE id IN (...)` — note there is no predicate on the current status. -/
def mark_batch_analysis_complete (s : Store) (image_ids : List Nat) : Store :=
  if image_ids = [] then s
  else
    { s with images := s.images.map (fun r =>
        if r.id ∈ image_ids then { r with processing_status := "completed" } else r) }

/-! ### Detection batch claim/complete (clothing-analysis side) -/

/-- The `SELECT id FROM mapillary_detections WHERE clothing_status =
'pending' AND crop_path IS NOT NULL LIMIT batch_size` step of
`claim_detections_for_analysis`. -/
def pendingDetectionRows (s : Store) (batch_size : Nat) : List DetectionRow :=
  (s.detections.filter (fun r =>
    r.clothing_status == "pending" && !r.crop_path.isNone)).take batch_size

/-- Embeds `claim_detections_for_analysis`: like the image claim but over
detections, additionally requiring a non-NULL `crop_path`; the re-select
returns only the `id` and `crop_path` columns. -/
def claim_detections_for_analysis (s : Store) (batch_size : Nat) :
    List (Nat × Option String) × Store :=
  let rows := pendingDetectionRows s batch_size
  if rows = [] then ([], s)
  else
    let ids : List Nat := rows.map (fun r => r.id)
    let dets2 := s.detections.map (fun r =>
      if r.id ∈ ids then { r with clothing_status := "processing" } else r)
    ((dets2.filter (fun r => r.id ∈ ids)).map (fun r => (r.id, r.crop_path)),
     { s with detections := dets2 })

/-- Embeds `mark_clothing_analysis_complete`: empty list returns immediately;
otherwise `UPDATE mapillary_detections SET clothing_status = 'completed'
WHERE id IN (...)`, again with no predicate on the current status. -/
def mark_clothing_analysis_complete (s : Store) (detection_ids : List Nat) : Store :=
  if detection_ids = [] then s
  else
    { s with detections := s.detections.map (fun r =>
        if r.id ∈ detection_ids then { r with clothing_status := "completed" } else r) }

/-- The dict handed to `insert_detections_batch` for one detection;
`clothing_status` is absent from the INSERT column list, so the row takes
the column default `'pending'`. -/
structure DetectionRecord where
  city_id : Option Nat
  original_image_id : Option Int
  confidence : Option Int
  bounding_box_detection : Option String
  crop_path : Option String
deriving DecidableEq, Repr

/-- Embeds `insert_detections_batch`: plain appends (the table has no natural
key), each row under the next AUTOINCREMENT id with default status. -/
def insert_detections_batch (s : Store) (detections : List DetectionRecord) : Store :=
  if detections = [] then s
  else
    let p := detections.foldl
      (fun acc r =>
        (acc.1 ++ [⟨acc.2, r.city_id, r.original_image_id, r.confidence,
                    r.bounding_box_detection, r.crop_path, "pending"⟩], acc.2 + 1))
      (s.detections, s.nextDetId)
    { s with detections := p.1, nextDetId := p.2 }

/-- Modelled from the spec: `resetStuck` for the image table — the
maintenance operation §4.3/§9 of the spec requires (absent from the
source), returning `processing` rows to `pending`; the time-based
staleness threshold is not modelled, every `processing` row is treated as
stale. -/
def reset_stuck_images (s : Store) : Store :=
  { s with images := s.images.map (fun r =>
      if r.processing_status = "processing" then { r with processing_status := "pending" } else r) }

/-! ### Schema and migration (`create_tables`) -/

/-- The schema state of one table: `none` when the table does not exist,
otherwise its column names in order. -/
def TableState := Option (List String)
deriving instance DecidableEq, Repr for TableState

/-- The schema-relevant state of the database: the four tables managed by
`create_tables` plus the one index it may create. -/
structure Schema where
  cities : TableState
  mapillary_images : TableState
  mapillary_detections : TableState
  clothing_measurements : TableState
  idx_clothing_status : Bool
deriving DecidableEq, Repr

/-- Columns of the `CREATE TABLE IF NOT EXISTS cities` statement. -/
def citiesColumns : List String :=
  ["id", "name", "search_term", "bbox", "population", "download_status",
   "downloaded_at", "analysis_status", "analyzed_at", "created_at"]

/-- Columns of the `CREATE TABLE IF NOT EXISTS mapillary_images` statement. -/
def imagesColumns : List String :=
  ["id", "image_id", "city_id", "captured_at", "location", "file_path",
   "processing_status", "created_at"]

/-- Columns of the `CREATE TABLE IF NOT EXISTS mapillary_detections` statement. -/
def detectionsColumns : List String :=
  ["id", "city_id", "original_image_id", "captured_at", "location",
   "confidence", "bounding_box_detection", "crop_path", "created_at"]

/-- Columns of the `CREATE TABLE IF NOT EXISTS clothing_measurements` statement. -/
def clothingColumns : List String :=
  ["id", "detection_id", "category", "confidence", "color_h", "color_s",
   "color_v", "texture_score", "area_ratio", "bbox_json", "created_at"]

/-- Embeds `CREATE TABLE IF NOT EXISTS`: creates the table with the given columns
when absent, leaves an existing table untouched. -/
def createTableIfNotExists (t : TableState) (cols : List String) : TableState :=
  match t with
  | none => some cols
  | some existing => some existing

/-- Embeds `PRAGMA table_info`: the column list, empty for a missing table. -/
def tableCols (t : TableState) : List String :=
  t.getD []

/-- Embeds `ALTER TABLE ... ADD COLUMN`: errors when the table is missing or the
column already exists (SQLite: "duplicate column name"). -/
def alterTableAddColumn (t : TableState) (col : String) :
    Except String TableState :=
  match t with
  | none => Except.error "no such table"
  | some cs =>
    if col ∈ cs then Except.error "duplicate column name"
    else Except.ok (some (cs ++ [col]))

/-- The source's migration idiom: `PRAGMA table_info`, then
`ALTER TABLE ... ADD COLUMN` only when the column is missing. -/
def ensureCol (t : TableState) (col : String) : Except String TableState :=
  if col ∈ tableCols t then pure t else alterTableAddColumn t col

/-- Embeds `create_tables`, in source order: create the four tables if absent and
run the three guarded column migrations (`processing_status` on images,
`crop_path` then `clothing_status` on detections), the last also creating
`idx_clothing_status`.  Each `ALTER TABLE` runs only after a
`PRAGMA table_info` check showed the column missing. -/
def create_tables (sch : Schema) : Except String Schema := do
  let cities := createTableIfNotExists sch.cities citiesColumns
  let images := createTableIfNotExists sch.mapillary_images imagesColumns
  let images ← ensureCol images "processing_status"
  let dets := createTableIfNotExists sch.mapillary_detections detectionsColumns
  let dets ← ensureCol dets "crop_path"
  let cloth := createTableIfNotExists sch.clothing_measurements clothingColumns
  let p ←
    if "clothing_status" ∈ tableCols dets then pure (dets, sch.idx_clothing_status)
    else do
      let d ← alterTableAddColumn dets "clothing_status"
      pure (d, true)
  pure ⟨cities, images, p.1, cloth, p.2⟩

/-! ### Derived notions used by the claims -/

/-- The `crop_path` of the detection row with primary key `i`. -/
def detCrop (s : Store) (i : Nat) : Option (Option String) :=
  (s.detections.find? (fun r => r.id == i)).map (fun r => r.crop_path)

/-- Primary keys selected by one image claim (step 1 of the transaction). -/
def selImgIds (s : Store) (n : Nat) : List Nat :=
  (pendingImageRows s n).map (fun r => r.id)

/-- Primary keys selected by one detection claim. -/
def selDetIds (s : Store) (n : Nat) : List Nat :=
  (pendingDetectionRows s n).map (fun r => r.id)

/-- Primary keys of the rows an image claim hands back to its caller. -/
def claimedImageIds (s : Store) (n : Nat) : List Nat :=
  (claim_batch_for_analysis s n).1.map (fun r => r.id)

/-- A sequence of `claim_batch_for_analysis` calls against one store:
for each call, the state it started from and the row ids it returned. -/
def claimCalls : Store → List Nat → List (Store × List Nat)
  | _, [] => []
  | s, n :: ns =>
    (s, claimedImageIds s n) :: claimCalls (claim_batch_for_analysis s n).2 ns

/-- Iterated `get_and_lock_city_for_download` (state only). -/
def claimCityIter : Nat → Store → Store
  | 0, s => s
  | k + 1, s => claimCityIter k (get_and_lock_city_for_download s).2

/-! ### Fault-injected transaction variants

In the source every claim/complete body runs inside `with conn:` followed
by an `except` clause.  When any statement of the body raises — the
lock-wait timeout `sqlite3.OperationalError` being the spec's `StoreBusy`
case — the context manager rolls the transaction back (none of its writes
become visible) and the handler prints the error and falls through to the
function's fallback return value.  The `fault` flag below injects such an
exception. -/

/-- Embeds `claim_batch_for_analysis` with a fault injected into its
transaction: the failed transaction leaves the store as it was and the
`except Error` handler returns `[]` — the caller receives no error value. -/
def claim_batch_for_analysis_faulty (s : Store) (batch_size : Nat)
    (fault : Bool) : List ImageRow × Store :=
  if fault then ([], s) else claim_batch_for_analysis s batch_size

/-- Embeds `mark_batch_analysis_complete` with a fault injected into its
transaction: the update is rolled back and the handler returns normally. -/
def mark_batch_analysis_complete_faulty (s : Store) (image_ids : List Nat)
    (fault : Bool) : Store :=
  if fault then s else mark_batch_analysis_complete s image_ids

/-! ### Operation alphabets for lifecycle traces -/

/-- The operations that touch the image work table. -/
inductive ImgOp where
  | claim (n : Nat)
  | complete (ids : List Nat)
  | reset
deriving DecidableEq, Repr

/-- State reached by one image-table operation. -/
def runImgOp (s : Store) : ImgOp → Store
  | .claim n => (claim_batch_for_analysis s n).2
  | .complete ids => mark_batch_analysis_complete s ids
  | .reset => reset_stuck_images s

/-- State reached by a sequence of image-table operations. -/
def runImgOps : Store → List ImgOp → Store
  | s, [] => s
  | s, op :: ops => runImgOps (runImgOp s op) ops

/-- Protocol discipline on an image-table trace: every `complete` is
applied only to identifiers whose status is `'processing'` at that point,
i.e. to rows previously claimed and not yet completed. -/
def imgGuarded (s : Store) : List ImgOp → Bool
  | [] => true
  | op :: ops =>
    (match op with
     | .complete ids => ids.all (fun i => imgStatus s i == some "processing")
     | _ => true) && imgGuarded (runImgOp s op) ops

/-- The status transitions the lifecycle allows for each operation:
claiming takes `pending` to `processing`, completing takes `processing`
to `completed`, and only the explicit reset returns `processing` to
`pending`. -/
def allowedImgStep : ImgOp → String → String → Prop
  | .claim _, a, b => a = "pending" ∧ b = "processing"
  | .complete _, a, b => a = "processing" ∧ b = "completed"
  | .reset, a, b => a = "processing" ∧ b = "pending"

/-- Along a trace, every status change any row undergoes is one the
lifecycle allows for the operation that caused it. -/
def imgStepsAllowed (s : Store) : List ImgOp → Prop
  | [] => True
  | op :: ops =>
    (∀ i a b, imgStatus s i = some a → imgStatus (runImgOp s op) i = some b →
      a ≠ b → allowedImgStep op a b) ∧
    imgStepsAllowed (runImgOp s op) ops

/-- The operations that touch the detection work table. -/
inductive DetOp where
  | claim (n : Nat)
  | complete (ids : List Nat)
deriving DecidableEq, Repr

/-- State reached by one detection-table operation. -/
def runDetOp (s : Store) : DetOp → Store
  | .claim n => (claim_detections_for_analysis s n).2
  | .complete ids => mark_clothing_analysis_complete s ids

/-- State reached by a sequence of detection-table operations. -/
def runDetOps : Store → List DetOp → Store
  | s, [] => s
  | s, op :: ops => runDetOps (runDetOp s op) ops

/-- Protocol discipline on a detection-table trace: `complete` is never
applied to an identifier still in the `'pending'` state (under the
claim/complete protocol completed ids were previously claimed, so they
are `'processing'` or already `'completed'`). -/
def detProtocol (s : Store) : List DetOp → Bool
  | [] => true
  | op :: ops =>
    (match op with
     | .complete ids => ids.all (fun i => !(detStatus s i == some "pending"))
     | _ => true) && detProtocol (runDetOp s op) ops

/-- Every core operation of the store, across all three tables. -/
inductive CoreOp where
  | claimCity
  | completeCity (id : Nat)
  | insertImages (records : List ImageRecord)
  | claimImages (n : Nat)
  | completeImages (ids : List Nat)
  | insertDetections (records : List DetectionRecord)
  | claimDetections (n : Nat)
  | completeDetections (ids : List Nat)
deriving DecidableEq, Repr

/-- State reached by one core operation. -/
def runCoreOp (s : Store) : CoreOp → Store
  | .claimCity => (get_and_lock_city_for_download s).2
  | .completeCity i => mark_city_download_complete s i
  | .insertImages rs => insert_image_records_batch s rs
  | .claimImages n => (claim_batch_for_analysis s n).2
  | .completeImages ids => mark_batch_analysis_complete s ids
  | .insertDetections rs => insert_detections_batch s rs
  | .claimDetections n => (claim_detections_for_analysis s n).2
  | .completeDetections ids => mark_clothing_analysis_complete s ids

/-- State reached by a sequence of core operations. -/
def runCoreOps : Store → List CoreOp → Store
  | s, [] => s
  | s, op :: ops => runCoreOps (runCoreOp s op) ops

/-! ### Concrete stores used to instantiate and to refute the claims -/

/-- A store whose image table holds exactly three pending rows. -/
def threePendingStore : Store :=
  ⟨[], [⟨1, 101, some 1, none, none, some "a.jpg", "pending"⟩,
        ⟨2, 102, some 1, none, none, some "b.jpg", "pending"⟩,
        ⟨3, 103, some 1, none, none, some "c.jpg", "pending"⟩], [], 4, 1⟩

/-- The store with all tables empty. -/
def emptyStore : Store := ⟨[], [], [], 1, 1⟩

/-- One pending city whose stored bbox is not valid JSON. -/
def badBboxStore : Store :=
  ⟨[⟨1, "Atlantis", some "oops", 100, "pending", "pending"⟩], [], [], 1, 1⟩

/-- The bbox string of the 500k city, in the shape the repository's city
generator stores: `json.dumps` of a float-valued west/south/east/north
object. -/
def bigtownBbox : String :=
  "\x7b\"west\": -0.5103, \"south\": 51.2868, \"east\": 0.334, \"north\": 51.6919\x7d"

/-- The value the JSON model parses `bigtownBbox` to. -/
def bigtownBboxVal : JsonVal :=
  JsonVal.jobj
    [("west".toList, JsonVal.jnum "-0.5103".toList),
     ("south".toList, JsonVal.jnum "51.2868".toList),
     ("east".toList, JsonVal.jnum "0.334".toList),
     ("north".toList, JsonVal.jnum "51.6919".toList)]

/-- Three pending cities with populations 50k, 500k and 200k. -/
def threeCitiesStore : Store :=
  ⟨[⟨1, "Smallville", none, 50000, "pending", "pending"⟩,
    ⟨2, "Bigtown", some bigtownBbox, 500000, "pending", "pending"⟩,
    ⟨3, "Midville", none, 200000, "pending", "pending"⟩], [], [], 1, 1⟩

/-- A city still pending download that already owns one pending image. -/
def pendingCityImageStore : Store :=
  ⟨[⟨1, "Newtown", none, 1000, "pending", "pending"⟩],
   [⟨1, 500, some 1, none, none, some "img.jpg", "pending"⟩], [], 2, 1⟩

/-- First claim of the basic claim/complete scenario: two of the three
pending rows. -/
def scenarioBatch1 : List ImageRow × Store :=
  claim_batch_for_analysis threePendingStore 2

/-- Second claim of the scenario, from the state the first committed. -/
def scenarioBatch2 : List ImageRow × Store :=
  claim_batch_for_analysis scenarioBatch1.2 2

/-- The scenario state after the first batch is marked complete. -/
def scenarioAfterMark1 : Store :=
  mark_batch_analysis_complete scenarioBatch2.2
    (scenarioBatch1.1.map (fun r => r.id))

/-- The scenario state after both batches are marked complete. -/
def scenarioFinal : Store :=
  mark_batch_analysis_complete scenarioAfterMark1
    (scenarioBatch2.1.map (fun r => r.id))

/-- Two pending detections, one with a NULL `crop_path` and one with a
real crop file. -/
def mixedCropStore : Store :=
  ⟨[], [],
   [⟨1, some 1, some 500, some 90, none, none, "pending"⟩,
    ⟨2, some 1, some 500, some 80, none, some "crop2.jpg", "pending"⟩], 1, 3⟩

end PipelineDB

/-! ## Helper lemmas -/

namespace PipelineDB

/-- Mapping a row-updating function that fixes a projection leaves the
projected list unchanged. -/
theorem map_map_fix {α β : Type} (l : List α) (f : α → α) (g : α → β)
    (h : ∀ a, g (f a) = g a) : (l.map f).map g = l.map g := by
  rw [List.map_map]
  exact List.map_congr_left (fun a _ => h a)

/-- Looking a row up by primary key commutes with a per-row update that
preserves the key. -/
theorem find?_map_fix_id {α : Type} (l : List α) (f : α → α) (idf : α → Nat)
    (hf : ∀ a, idf (f a) = idf a) (i : Nat) :
    (l.map f).find? (fun r => idf r == i) =
      (l.find? (fun r => idf r == i)).map f := by
  rw [List.find?_map]
  have hp : (fun r => idf r == i) ∘ f = (fun r => idf r == i) := by
    funext a
    simp [Function.comp, hf]
  rw [hp]

/-- With pairwise-distinct keys, lookup by the key of a member returns
that member. -/
theorem find?_eq_of_mem_nodup {α : Type} (l : List α) (idf : α → Nat)
    (hn : (l.map idf).Nodup) (r : α) (hr : r ∈ l) :
    l.find? (fun x => idf x == idf r) = some r := by
  have hs : (l.find? (fun x => idf x == idf r)).isSome := by
    rw [List.find?_isSome]
    exact ⟨r, hr, by simp⟩
  obtain ⟨r0, h0⟩ := Option.isSome_iff_exists.mp hs
  have h1 : idf r0 = idf r := by simpa using List.find?_some h0
  have h2 : r0 ∈ l := List.mem_of_find?_eq_some h0
  have h3 : r0 = r := List.inj_on_of_nodup_map hn h2 hr h1
  rw [h0, h3]

/-- The image table an image claim commits: exactly the selected ids are
flipped to `'processing'`. -/
theorem claim_snd_images (s : Store) (n : Nat) :
    ((claim_batch_for_analysis s n).2).images =
      s.images.map (fun r =>
        if r.id ∈ selImgIds s n then { r with processing_status := "processing" }
        else r) := by
  unfold claim_batch_for_analysis
  by_cases h : pendingImageRows s n = []
  · simp [selImgIds, h]
  · simp only [h, if_neg (by simpa using h)]
    rfl

/-- Claims do not add, remove or renumber image rows. -/
theorem imgIds_claim (s : Store) (n : Nat) :
    ((claim_batch_for_analysis s n).2).images.map (fun r => r.id) =
      s.images.map (fun r => r.id) := by
  rw [claim_snd_images]
  exact map_map_fix _ _ _ (fun a => by split <;> rfl)

/-- Completions do not add, remove or renumber image rows. -/
theorem imgIds_complete (s : Store) (ids : List Nat) :
    (mark_batch_analysis_complete s ids).images.map (fun r => r.id) =
      s.images.map (fun r => r.id) := by
  unfold mark_batch_analysis_complete
  split
  · rfl
  · exact map_map_fix _ _ _ (fun a => by split <;> rfl)

/-- Resets do not add, remove or renumber image rows. -/
theorem imgIds_reset (s : Store) :
    (reset_stuck_images s).images.map (fun r => r.id) =
      s.images.map (fun r => r.id) := by
  unfold reset_stuck_images
  exact map_map_fix _ _ _ (fun a => by split <;> rfl)

/-- Pointwise effect of an image claim on statuses. -/
theorem imgStatus_claim (s : Store) (n : Nat) (i : Nat) :
    imgStatus (claim_batch_for_analysis s n).2 i =
      (s.images.find? (fun r => r.id == i)).map
        (fun r => if r.id ∈ selImgIds s n then "processing"
                  else r.processing_status) := by
  rw [imgStatus, claim_snd_images,
    find?_map_fix_id s.images _ (fun r => r.id) (fun a => by split <;> rfl) i,
    Option.map_map]
  cases s.images.find? (fun r => r.id == i) with
  | none => rfl
  | some r =>
    simp only [Option.map_some', Function.comp]
    split <;> rfl

/-- Pointwise effect of `mark_batch_analysis_complete` on statuses. -/
theorem imgStatus_complete (s : Store) (ids : List Nat) (i : Nat) :
    imgStatus (mark_batch_analysis_complete s ids) i =
      (s.images.find? (fun r => r.id == i)).map
        (fun r => if r.id ∈ ids then "completed" else r.processing_status) := by
  unfold mark_batch_analysis_complete
  split
  · rename_i h
    subst h
    rw [imgStatus]
    cases s.images.find? (fun r => r.id == i) <;> simp
  · rw [imgStatus,
      find?_map_fix_id s.images _ (fun r => r.id) (fun a => by split <;> rfl) i,
      Option.map_map]
    cases s.images.find? (fun r => r.id == i) with
    | none => rfl
    | some r =>
      simp only [Option.map_some', Function.comp]
      split <;> rfl

/-- Pointwise effect of the (spec-modelled) reset on statuses. -/
theorem imgStatus_reset (s : Store) (i : Nat) :
    imgStatus (reset_stuck_images s) i =
      (s.images.find? (fun r => r.id == i)).map
        (fun r => if r.processing_status = "processing" then "pending"
                  else r.processing_status) := by
  rw [imgStatus, reset_stuck_images,
    find?_map_fix_id s.images _ (fun r => r.id) (fun a => by split <;> rfl) i,
    Option.map_map]
  cases s.images.find? (fun r => r.id == i) with
  | none => rfl
  | some r =>
    simp only [Option.map_some', Function.comp]
    split <;> rfl

/-- Rows picked by the claim's SELECT are pending rows of the table. -/
theorem pendingImageRows_spec (s : Store) (n : Nat) (r : ImageRow)
    (h : r ∈ pendingImageRows s n) :
    r ∈ s.images ∧ r.processing_status = "pending" := by
  have h1 := List.mem_of_mem_take h
  rw [List.mem_filter] at h1
  exact ⟨h1.1, by simpa using h1.2⟩

/-- An id selected by the claim belongs to a row pending in the
pre-state (distinct primary keys). -/
theorem imgStatus_of_mem_sel (s : Store) (n : Nat) (i : Nat)
    (hn : (s.images.map (fun r => r.id)).Nodup) (h : i ∈ selImgIds s n) :
    imgStatus s i = some "pending" := by
  obtain ⟨r, hr, hid⟩ := List.mem_map.mp h
  obtain ⟨hm, hp⟩ := pendingImageRows_spec s n r hr
  subst hid
  rw [imgStatus, find?_eq_of_mem_nodup s.images (fun r => r.id) hn r hm]
  simp [hp]

/-- An id selected by the claim is `'processing'` in the committed state. -/
theorem imgStatus_claim_mem (s : Store) (n : Nat) (i : Nat)
    (hn : (s.images.map (fun r => r.id)).Nodup) (h : i ∈ selImgIds s n) :
    imgStatus (claim_batch_for_analysis s n).2 i = some "processing" := by
  have hp := imgStatus_of_mem_sel s n i hn h
  rw [imgStatus] at hp
  obtain ⟨r0, hf, _⟩ := Option.map_eq_some'.mp hp
  have hid : r0.id = i := by simpa using List.find?_some hf
  rw [imgStatus_claim, hf, Option.map_some', hid, if_pos h]

/-- Ids not selected by the claim keep their status. -/
theorem imgStatus_claim_not_mem (s : Store) (n : Nat) (i : Nat)
    (h : i ∉ selImgIds s n) :
    imgStatus (claim_batch_for_analysis s n).2 i = imgStatus s i := by
  rw [imgStatus_claim, imgStatus]
  cases hf : s.images.find? (fun r => r.id == i) with
  | none => rfl
  | some r0 =>
    have hid : r0.id = i := by simpa using List.find?_some hf
    rw [Option.map_some', Option.map_some', hid, if_neg h]

/-- A claim never moves a row out of `'processing'`. -/
theorem imgStatus_claim_keeps_processing (s : Store) (n : Nat) (i : Nat)
    (hn : (s.images.map (fun r => r.id)).Nodup)
    (h : imgStatus s i = some "processing") :
    imgStatus (claim_batch_for_analysis s n).2 i = some "processing" := by
  by_cases hm : i ∈ selImgIds s n
  · exact imgStatus_claim_mem s n i hn hm
  · rw [imgStatus_claim_not_mem s n i hm, h]

/-- The rows an image claim hands back: the just-updated table restricted
to the selected ids. -/
theorem claim_fst_images (s : Store) (n : Nat) :
    (claim_batch_for_analysis s n).1 =
      (s.images.map (fun r =>
        if r.id ∈ selImgIds s n then { r with processing_status := "processing" }
        else r)).filter (fun r => decide (r.id ∈ selImgIds s n)) := by
  unfold claim_batch_for_analysis
  by_cases h : pendingImageRows s n = []
  · simp [selImgIds, h]
  · simp only [h, if_neg (by simpa using h)]
    rfl

/-- The ids a claim returns are exactly the ids its SELECT picked. -/
theorem mem_claimedImageIds (s : Store) (n : Nat) (i : Nat) :
    i ∈ claimedImageIds s n ↔ i ∈ selImgIds s n := by
  unfold claimedImageIds
  rw [claim_fst_images]
  constructor
  · intro hi
    obtain ⟨r, hr, hid⟩ := List.mem_map.mp hi
    simp only [List.mem_filter, decide_eq_true_iff] at hr
    exact hid ▸ hr.2
  · intro hi
    obtain ⟨rs, hrs, hid⟩ := List.mem_map.mp hi
    have hmem : rs ∈ s.images := (pendingImageRows_spec s n rs hrs).1
    refine List.mem_map.mpr ?_
    refine ⟨if rs.id ∈ selImgIds s n
              then { rs with processing_status := "processing" } else rs, ?_, ?_⟩
    · rw [List.mem_filter]
      refine ⟨List.mem_map_of_mem _ hmem, ?_⟩
      rw [decide_eq_true_iff]
      split <;> simpa [hid] using hi
    · split <;> simpa using hid

/-- A row already `'processing'` is returned by no later claim call. -/
theorem processing_not_in_claimCalls (ns : List Nat) :
    ∀ s i, (s.images.map (fun r => r.id)).Nodup →
      imgStatus s i = some "processing" →
      ∀ p ∈ claimCalls s ns, i ∉ p.2 := by
  induction ns with
  | nil =>
    intro s i _ _ p hp
    simp [claimCalls] at hp
  | cons n ns ih =>
    intro s i hn hproc p hp
    simp only [claimCalls, List.mem_cons] at hp
    rcases hp with rfl | hp
    · intro hmem
      have hmem2 : i ∈ selImgIds s n := (mem_claimedImageIds s n i).mp hmem
      have := imgStatus_of_mem_sel s n i hn hmem2
      rw [hproc] at this
      simp at this
    · exact ih ((claim_batch_for_analysis s n).2) i
        (by rw [imgIds_claim]; exact hn)
        (imgStatus_claim_keeps_processing s n i hn hproc) p hp

/-- What one `pickMaxPop` step guarantees. -/
theorem pickMaxPop_spec (acc : Option CityRow) (a : CityRow) :
    ∃ v, pickMaxPop acc a = some v ∧ a.population ≤ v.population ∧
      (∀ b, acc = some b → b.population ≤ v.population) := by
  cases acc with
  | none => exact ⟨a, rfl, le_refl _, by simp⟩
  | some b =>
    by_cases h : b.population < a.population
    · refine ⟨a, by simp [pickMaxPop, h], le_refl _, ?_⟩
      intro b2 hb2
      injection hb2 with h2
      rw [← h2]
      exact le_of_lt h
    · refine ⟨b, by simp [pickMaxPop, h], le_of_not_lt h, ?_⟩
      intro b2 hb2
      injection hb2 with h2
      rw [← h2]

/-- One `pickMaxPop` step only passes along the accumulator or the
element. -/
theorem pickMaxPop_cases (acc : Option CityRow) (a c : CityRow)
    (h : pickMaxPop acc a = some c) : c = a ∨ acc = some c := by
  cases acc with
  | none =>
    injection h with h2
    exact Or.inl h2.symm
  | some b =>
    rw [pickMaxPop] at h
    split at h
    · injection h with h2
      exact Or.inl h2.symm
    · injection h with h2
      exact Or.inr (by rw [h2])

/-- The fold behind `selectTopPendingCity` yields an element of the list
(or the accumulator) that dominates every list element's population. -/
theorem foldl_pickMaxPop_spec (l : List CityRow) :
    ∀ acc c, l.foldl pickMaxPop acc = some c →
      (acc = some c ∨ c ∈ l) ∧
      (∀ x ∈ l, x.population ≤ c.population) ∧
      (∀ b, acc = some b → b.population ≤ c.population) := by
  induction l with
  | nil =>
    intro acc c h
    rw [List.foldl_nil] at h
    refine ⟨Or.inl h, by simp, ?_⟩
    intro b hb
    rw [h] at hb
    injection hb with h2
    rw [h2]
  | cons a t ih =>
    intro acc c h
    rw [List.foldl_cons] at h
    obtain ⟨hmem, hmax, hacc⟩ := ih (pickMaxPop acc a) c h
    obtain ⟨v, hv, hav, hbv⟩ := pickMaxPop_spec acc a
    have hvc : v.population ≤ c.population := hacc v hv
    refine ⟨?_, ?_, ?_⟩
    · rcases hmem with h0 | h0
      · rcases pickMaxPop_cases acc a c h0 with h1 | h1
        · exact Or.inr (h1 ▸ List.mem_cons_self a t)
        · exact Or.inl h1
      · exact Or.inr (List.mem_cons_of_mem a h0)
    · intro x hx
      rcases List.mem_cons.mp hx with rfl | hx
      · exact le_trans hav hvc
      · exact hmax x hx
    · intro b hb
      exact le_trans (hbv b hb) hvc

/-- A city returned by `selectTopPendingCity` is a pending city of
maximal population. -/
theorem selectTopPendingCity_spec (cities : List CityRow) (c : CityRow)
    (h : selectTopPendingCity cities = some c) :
    c ∈ cities ∧ c.download_status = "pending" ∧
    ∀ x ∈ cities, x.download_status = "pending" →
      x.population ≤ c.population := by
  unfold selectTopPendingCity at h
  obtain ⟨hmem, hmax, _⟩ := foldl_pickMaxPop_spec _ none c h
  rcases hmem with h0 | hmem
  · exact absurd h0 (by simp)
  · rw [List.mem_filter] at hmem
    refine ⟨hmem.1, by simpa using hmem.2, ?_⟩
    intro x hx hp
    exact hmax x (List.mem_filter.mpr ⟨hx, by simp [hp]⟩)

/-- Pointwise effect on `download_status` of updating one city by key. -/
theorem cityDlStatus_update (cities : List CityRow) (cid : Nat)
    (st : String) (i : Nat) :
    ((cities.map (fun r =>
        if r.id = cid then { r with download_status := st } else r)).find?
      (fun r => r.id == i)).map (fun r => r.download_status) =
    (cities.find? (fun r => r.id == i)).map
      (fun r => if r.id = cid then st else r.download_status) := by
  rw [find?_map_fix_id cities _ (fun r => r.id) (fun a => by split <;> rfl) i,
    Option.map_map]
  cases cities.find? (fun r => r.id == i) with
  | none => rfl
  | some r =>
    simp only [Option.map_some', Function.comp]
    split <;> rfl

end PipelineDB

/-! ## The claims -/

namespace PipelineDB

/-- C1: along any sequence of `claim_batch_for_analysis` calls against
the same table, every returned identifier belongs to a row whose status
was `'pending'` at the start of that call, and the identifier sets
returned by distinct calls are pairwise disjoint — once claimed
(`'processing'`), a row is returned by no subsequent claim call. -/
theorem claim_batches_pairwise_disjoint (s : Store) (ns : List Nat)
    (hn : (s.images.map (fun r => r.id)).Nodup) :
    (∀ p ∈ claimCalls s ns, ∀ i ∈ p.2, imgStatus p.1 i = some "pending") ∧
    ((claimCalls s ns).map Prod.snd).Pairwise (fun a b => ∀ i ∈ a, i ∉ b) := by
  induction ns generalizing s with
  | nil => exact ⟨by simp [claimCalls], by simp [claimCalls]⟩
  | cons n ns ih =>
    have hn2 : (((claim_batch_for_analysis s n).2).images.map (fun r => r.id)).Nodup := by
      rw [imgIds_claim]
      exact hn
    obtain ⟨ihp, ihd⟩ := ih ((claim_batch_for_analysis s n).2) hn2
    constructor
    · intro p hp
      simp only [claimCalls, List.mem_cons] at hp
      rcases hp with rfl | hp
      · intro i hi
        have hi2 : i ∈ selImgIds s n := (mem_claimedImageIds s n i).mp hi
        exact imgStatus_of_mem_sel s n i hn hi2
      · exact ihp p hp
    · simp only [claimCalls, List.map_cons]
      refine List.Pairwise.cons ?_ ihd
      intro b hb i hi
      obtain ⟨p, hp, rfl⟩ := List.mem_map.mp hb
      have hi2 : i ∈ selImgIds s n := (mem_claimedImageIds s n i).mp hi
      have hproc := imgStatus_claim_mem s n i hn hi2
      exact processing_not_in_claimCalls ns _ i hn2 hproc p hp

/-- Witness for C1 at a concrete store and call sequence. -/
theorem claim_batches_pairwise_disjoint_witness :
    (threePendingStore.images.map (fun r => r.id)).Nodup ∧
    ((∀ p ∈ claimCalls threePendingStore [2, 2, 2], ∀ i ∈ p.2,
        imgStatus p.1 i = some "pending") ∧
     ((claimCalls threePendingStore [2, 2, 2]).map Prod.snd).Pairwise
        (fun a b => ∀ i ∈ a, i ∉ b)) :=
  ⟨by decide, claim_batches_pairwise_disjoint threePendingStore [2, 2, 2] (by decide)⟩

/-- C2: from three pending rows, a claim of 2 returns exactly 2 rows now
`'processing'`; the next claim of 2 returns exactly the remaining row;
completing both batches leaves 0 pending, 0 processing and 3 completed
rows; the first completion touches exactly its own identifiers (row 3 is
still `'processing'` after it); and completing an empty identifier list
is a no-op, not an error. -/
theorem basic_claim_complete_scenario :
    scenarioBatch1.1.length = 2 ∧
    (∀ r ∈ scenarioBatch1.1, r.processing_status = "processing") ∧
    scenarioBatch2.1.map (fun r => r.id) = [3] ∧
    (∀ r ∈ scenarioBatch2.1, r.processing_status = "processing") ∧
    imgStatus scenarioAfterMark1 3 = some "processing" ∧
    (scenarioFinal.images.filter
      (fun r => r.processing_status == "pending")).length = 0 ∧
    (scenarioFinal.images.filter
      (fun r => r.processing_status == "processing")).length = 0 ∧
    (scenarioFinal.images.filter
      (fun r => r.processing_status == "completed")).length = 3 ∧
    (∀ t : Store, mark_batch_analysis_complete t [] = t) := by
  refine ⟨by decide, by decide, by decide, by decide, by decide, by decide,
    by decide, by decide, fun t => rfl⟩

/-- C4 counterexample: a transaction fault (the lock-wait timeout case)
during `claim_batch_for_analysis` does not surface any `StoreBusy` error:
the caller receives a plain `[]`, byte-for-byte the result of a
successful claim against an empty queue. -/
theorem storebusy_swallowed :
    (∃ r ∈ threePendingStore.images, r.processing_status = "pending") ∧
    claim_batch_for_analysis_faulty threePendingStore 32 true =
      ([], threePendingStore) ∧
    claim_batch_for_analysis_faulty emptyStore 32 false = ([], emptyStore) := by
  refine ⟨by decide, rfl, by decide⟩

/-- C4 amended: when a claim or complete transaction fails, the exception
is caught inside the function — the caller sees an empty result (claim)
or a normal return (complete), not a `StoreBusy` error — and the failure
is never partially applied: the store is exactly as before the call. -/
theorem failed_txn_rolls_back (s : Store) (batch_size : Nat) (ids : List Nat) :
    claim_batch_for_analysis_faulty s batch_size true = ([], s) ∧
    mark_batch_analysis_complete_faulty s ids true = s :=
  ⟨rfl, rfl⟩

/-- C5: inserting a record whose external `image_id` already has exactly
one row is a successful no-op — the store (hence every column of the
existing row) is unchanged and exactly one row with that key remains. -/
theorem insert_duplicate_natural_key_noop (s : Store) (r2 : ImageRecord)
    (h1 : (s.images.filter
      (fun row => row.image_id == r2.image_id)).length = 1) :
    insert_image_records_batch s [r2] = s ∧
    ((insert_image_records_batch s [r2]).images.filter
      (fun row => row.image_id == r2.image_id)).length = 1 := by
  have hne : s.images.filter (fun row => row.image_id == r2.image_id) ≠ [] := by
    intro h0
    rw [h0] at h1
    simp at h1
  obtain ⟨x, hx⟩ := List.exists_mem_of_ne_nil _ hne
  have hx2 := List.mem_filter.mp hx
  have hex : s.images.any (fun row => row.image_id == r2.image_id) = true :=
    List.any_eq_true.mpr ⟨x, hx2.1, hx2.2⟩
  have hmain : insert_image_records_batch s [r2] = s := by
    unfold insert_image_records_batch
    rw [if_neg (by simp)]
    simp only [List.foldl_cons, List.foldl_nil, insertOneImage, hex, if_pos]
  exact ⟨hmain, by rw [hmain]; exact h1⟩

/-- Witness for C5: re-inserting image 101 (with different column values)
into the three-row store changes nothing. -/
theorem insert_duplicate_natural_key_noop_witness :
    ((threePendingStore.images.filter
        (fun row => row.image_id == (⟨101, some 2, none, none, some "dup.jpg"⟩ :
          ImageRecord).image_id)).length = 1) ∧
    (insert_image_records_batch threePendingStore
        [⟨101, some 2, none, none, some "dup.jpg"⟩] = threePendingStore ∧
     ((insert_image_records_batch threePendingStore
        [⟨101, some 2, none, none, some "dup.jpg"⟩]).images.filter
        (fun row => row.image_id == (⟨101, some 2, none, none, some "dup.jpg"⟩ :
          ImageRecord).image_id)).length = 1) :=
  ⟨by decide, insert_duplicate_natural_key_noop threePendingStore
    ⟨101, some 2, none, none, some "dup.jpg"⟩ (by decide)⟩

/-- C6 counterexample: a table with a pending city exists, yet
`get_and_lock_city_for_download` returns no city at all — the pending
city's stored bbox is not valid JSON, `json.loads` raises inside the
transaction, and the claim comes back `None` with the store unchanged. -/
theorem claim_city_misses_pending_on_bad_bbox :
    (∃ x ∈ badBboxStore.cities, x.download_status = "pending") ∧
    (get_and_lock_city_for_download badBboxStore).1 = none ∧
    (get_and_lock_city_for_download badBboxStore).2 = badBboxStore := by
  refine ⟨by decide, rfl, rfl⟩

/-- C6 amended: whenever the top-priority pending city's bbox column is
NULL, empty, or valid JSON, `get_and_lock_city_for_download` returns that
city — a pending city of maximal population among all pending cities —
and flips exactly its `download_status` to `'processing'`. -/
theorem claim_city_takes_top_pending (s : Store) (c : CityRow)
    (hn : (s.cities.map (fun r => r.id)).Nodup)
    (hsel : selectTopPendingCity s.cities = some c)
    (bb : Option JsonVal) (hbb : loadBbox c.bbox = some bb) :
    (get_and_lock_city_for_download s).1 =
      some ⟨c.id, c.name, bb, c.population⟩ ∧
    c ∈ s.cities ∧ c.download_status = "pending" ∧
    (∀ x ∈ s.cities, x.download_status = "pending" →
      x.population ≤ c.population) ∧
    cityDlStatus (get_and_lock_city_for_download s).2 c.id =
      some "processing" ∧
    (∀ i, i ≠ c.id →
      cityDlStatus (get_and_lock_city_for_download s).2 i = cityDlStatus s i) := by
  obtain ⟨hmem, hpend, hmax⟩ := selectTopPendingCity_spec s.cities c hsel
  have hrun : get_and_lock_city_for_download s =
      (some ⟨c.id, c.name, bb, c.population⟩,
       { s with cities := s.cities.map (fun r =>
           if r.id = c.id then { r with download_status := "processing" }
           else r) }) := by
    unfold get_and_lock_city_for_download
    rw [hsel]
    simp [hbb]
  refine ⟨by rw [hrun], hmem, hpend, hmax, ?_, ?_⟩
  · rw [hrun, cityDlStatus]
    rw [cityDlStatus_update s.cities c.id "processing" c.id,
      find?_eq_of_mem_nodup s.cities (fun r => r.id) hn c hmem]
    simp
  · intro i hi
    rw [hrun, cityDlStatus, cityDlStatus,
      cityDlStatus_update s.cities c.id "processing" i]
    cases hf : s.cities.find? (fun r => r.id == i) with
    | none => rfl
    | some r0 =>
      have hid : r0.id = i := by simpa using List.find?_some hf
      simp [hid, hi]

/-- Witness for C6 at the 50k/500k/200k scenario with the 500k city's
bbox a repository-shaped float-valued JSON object: that city is returned
first, bbox parsed. -/
theorem claim_city_takes_top_pending_witness :
    ((threeCitiesStore.cities.map (fun r => r.id)).Nodup ∧
     selectTopPendingCity threeCitiesStore.cities =
       some ⟨2, "Bigtown", some bigtownBbox, 500000, "pending", "pending"⟩ ∧
     loadBbox (some bigtownBbox) = some (some bigtownBboxVal)) ∧
    (get_and_lock_city_for_download threeCitiesStore).1 =
      some ⟨2, "Bigtown", some bigtownBboxVal, 500000⟩ := by
  refine ⟨⟨by decide, by decide, rfl⟩, ?_⟩
  exact (claim_city_takes_top_pending threeCitiesStore
    ⟨2, "Bigtown", some bigtownBbox, 500000, "pending", "pending"⟩
    (by decide) (by decide) (some bigtownBboxVal) rfl).1

/-- C9: when the top-priority pending city's bbox holds a string that is
not valid JSON, the claim parses it inside the transaction before the
status update commits, so the call returns `None`, the store is exactly
as before, the city's `download_status` is still `'pending'`, and every
subsequent claim call re-selects the same city and fails the same way. -/
theorem invalid_bbox_aborts_claim (s : Store) (c : CityRow)
    (hn : (s.cities.map (fun r => r.id)).Nodup)
    (hsel : selectTopPendingCity s.cities = some c)
    (str : String) (hbx : c.bbox = some str) (hne : str ≠ "")
    (hbad : parseJson str = none) :
    get_and_lock_city_for_download s = (none, s) ∧
    cityDlStatus s c.id = some "pending" ∧
    (∀ k, claimCityIter k s = s) ∧
    (∀ k, selectTopPendingCity (claimCityIter k s).cities = some c) := by
  obtain ⟨hmem, hpend, _⟩ := selectTopPendingCity_spec s.cities c hsel
  have hload : loadBbox c.bbox = none := by
    rw [hbx]
    simp [loadBbox, hne, hbad]
  have h1 : get_and_lock_city_for_download s = (none, s) := by
    unfold get_and_lock_city_for_download
    rw [hsel]
    simp [hload]
  have hiter : ∀ k, claimCityIter k s = s := by
    intro k
    induction k with
    | zero => rfl
    | succ k ih =>
      rw [claimCityIter, h1]
      exact ih
  refine ⟨h1, ?_, hiter, fun k => by rw [hiter k]; exact hsel⟩
  rw [cityDlStatus, find?_eq_of_mem_nodup s.cities (fun r => r.id) hn c hmem]
  simp [hpend]

/-- Witness for C9 at the malformed-bbox store. -/
theorem invalid_bbox_aborts_claim_witness :
    ((badBboxStore.cities.map (fun r => r.id)).Nodup ∧
     selectTopPendingCity badBboxStore.cities =
       some ⟨1, "Atlantis", some "oops", 100, "pending", "pending"⟩ ∧
     parseJson "oops" = none) ∧
    (get_and_lock_city_for_download badBboxStore = (none, badBboxStore) ∧
     cityDlStatus badBboxStore 1 = some "pending") := by
  refine ⟨⟨by decide, by decide, rfl⟩, ?_⟩
  have h := invalid_bbox_aborts_claim badBboxStore
    ⟨1, "Atlantis", some "oops", 100, "pending", "pending"⟩
    (by decide) (by decide) "oops" rfl (by decide) rfl
  exact ⟨h.1, h.2.1⟩

/-- Updating city rows by key leaves every `analysis_status` untouched
when the update function preserves it. -/
theorem cityAnStatus_map_fix (cities : List CityRow) (f : CityRow → CityRow)
    (h1 : ∀ r, (f r).id = r.id)
    (h2 : ∀ r, (f r).analysis_status = r.analysis_status) (i : Nat) :
    ((cities.map f).find? (fun r => r.id == i)).map
      (fun r => r.analysis_status) =
    (cities.find? (fun r => r.id == i)).map (fun r => r.analysis_status) := by
  rw [find?_map_fix_id cities f (fun r => r.id) h1 i, Option.map_map]
  cases cities.find? (fun r => r.id == i) with
  | none => rfl
  | some r => simp [Function.comp, h2]

/-- Image claims never touch the city table. -/
theorem claim_snd_cities (s : Store) (n : Nat) :
    ((claim_batch_for_analysis s n).2).cities = s.cities := by
  unfold claim_batch_for_analysis
  by_cases h : pendingImageRows s n = []
  · simp [h]
  · simp only [h, if_neg (by simpa using h)]
    rfl

/-- Image completions never touch the city table. -/
theorem complete_cities (s : Store) (ids : List Nat) :
    (mark_batch_analysis_complete s ids).cities = s.cities := by
  unfold mark_batch_analysis_complete
  split <;> rfl

/-- Image inserts never touch the city table. -/
theorem insertImages_cities (s : Store) (rs : List ImageRecord) :
    (insert_image_records_batch s rs).cities = s.cities := by
  unfold insert_image_records_batch
  split <;> rfl

/-- Detection claims never touch the city table. -/
theorem claimDet_snd_cities (s : Store) (n : Nat) :
    ((claim_detections_for_analysis s n).2).cities = s.cities := by
  unfold claim_detections_for_analysis
  by_cases h : pendingDetectionRows s n = []
  · simp [h]
  · simp only [h, if_neg (by simpa using h)]
    rfl

/-- Detection completions never touch the city table. -/
theorem completeDet_cities (s : Store) (ids : List Nat) :
    (mark_clothing_analysis_complete s ids).cities = s.cities := by
  unfold mark_clothing_analysis_complete
  split <;> rfl

/-- Detection inserts never touch the city table. -/
theorem insertDet_cities (s : Store) (rs : List DetectionRecord) :
    (insert_detections_batch s rs).cities = s.cities := by
  unfold insert_detections_batch
  split <;> rfl

/-- No single core operation changes any city's `analysis_status`. -/
theorem runCoreOp_cityAnStatus (s : Store) (op : CoreOp) (i : Nat) :
    cityAnStatus (runCoreOp s op) i = cityAnStatus s i := by
  cases op with
  | claimCity =>
    rw [runCoreOp]
    unfold get_and_lock_city_for_download
    cases h : selectTopPendingCity s.cities with
    | none => simp [h]
    | some c =>
      cases hb : loadBbox c.bbox with
      | none => simp [h, hb]
      | some bb =>
        simp only [h, hb]
        simp only [cityAnStatus]
        exact cityAnStatus_map_fix s.cities _
          (fun r => by split <;> rfl) (fun r => by split <;> rfl) i
  | completeCity cid =>
    rw [runCoreOp]
    simp only [cityAnStatus, mark_city_download_complete]
    exact cityAnStatus_map_fix s.cities _
      (fun r => by split <;> rfl) (fun r => by split <;> rfl) i
  | insertImages rs =>
    simp only [cityAnStatus, runCoreOp, insertImages_cities]
  | claimImages n =>
    simp only [cityAnStatus, runCoreOp, claim_snd_cities]
  | completeImages ids =>
    simp only [cityAnStatus, runCoreOp, complete_cities]
  | insertDetections rs =>
    simp only [cityAnStatus, runCoreOp, insertDet_cities]
  | claimDetections n =>
    simp only [cityAnStatus, runCoreOp, claimDet_snd_cities]
  | completeDetections ids =>
    simp only [cityAnStatus, runCoreOp, completeDet_cities]

/-- C8 counterexample: the claim feeding the analysis stage applies no
`download_status = 'done'` predicate — it claims (and flips to
`'processing'`) an image whose owning city is still `'pending'` for
download. -/
theorem analysis_claim_ignores_city_status :
    cityDlStatus pendingCityImageStore 1 = some "pending" ∧
    (claim_batch_for_analysis pendingCityImageStore 32).1.map
      (fun r => (r.id, r.city_id)) = [(1, some 1)] ∧
    imgStatus (claim_batch_for_analysis pendingCityImageStore 32).2 1 =
      some "processing" := by
  refine ⟨by decide, by decide, by decide⟩

/-- C8 amended: a city's `analysis_status` indeed never reaches `'done'`
before its `download_status` does, but vacuously — no core operation
writes `analysis_status` at all — and not because of any query
predicate: the analysis claim ignores city status entirely. -/
theorem analysis_status_never_written (s : Store) (ops : List CoreOp)
    (i : Nat) :
    cityAnStatus (runCoreOps s ops) i = cityAnStatus s i := by
  induction ops generalizing s with
  | nil => rfl
  | cons op ops ih =>
    simp only [runCoreOps]
    rw [ih (runCoreOp s op), runCoreOp_cityAnStatus]

/-- C3 counterexample: `mark_batch_analysis_complete` carries no predicate
on the current status, so applying it to a row still `'pending'` moves
that row straight to `'completed'`, skipping `'processing'` — an
operation sequence whose observed transition the lifecycle forbids. -/
theorem unguarded_complete_skips_lifecycle :
    imgStatus threePendingStore 1 = some "pending" ∧
    imgStatus (runImgOp threePendingStore (ImgOp.complete [1])) 1 =
      some "completed" ∧
    ¬ imgStepsAllowed threePendingStore [ImgOp.complete [1]] := by
  refine ⟨by decide, by decide, ?_⟩
  intro h
  have h2 := h.1 1 "pending" "completed" (by decide) (by decide) (by decide)
  exact absurd h2.1 (by decide)

/-- C3 amended: along every operation sequence in which `markComplete` is
applied only to identifiers currently `'processing'` (i.e. previously
claimed and not yet completed), each row's observed transitions are only
pending→processing (claim), processing→completed (complete), and
processing→pending under the explicit reset — never skipped, never
reversed otherwise. -/
theorem guarded_lifecycle_monotone (s : Store) (ops : List ImgOp)
    (hn : (s.images.map (fun r => r.id)).Nodup)
    (hg : imgGuarded s ops = true) :
    imgStepsAllowed s ops := by
  induction ops generalizing s with
  | nil => trivial
  | cons op ops ih =>
    simp only [imgGuarded, Bool.and_eq_true] at hg
    obtain ⟨hg1, hg2⟩ := hg
    have hn2 : ((runImgOp s op).images.map (fun r => r.id)).Nodup := by
      cases op with
      | claim n =>
        rw [runImgOp, imgIds_claim]
        exact hn
      | complete ids =>
        rw [runImgOp, imgIds_complete]
        exact hn
      | reset =>
        rw [runImgOp, imgIds_reset]
        exact hn
    refine ⟨?_, ih (runImgOp s op) hn2 hg2⟩
    intro i a b ha hb hab
    obtain ⟨r0, hf, hstat⟩ := Option.map_eq_some'.mp ha
    have hid : r0.id = i := by simpa using List.find?_some hf
    cases op with
    | claim n =>
      have hb2 : imgStatus (runImgOp s (ImgOp.claim n)) i = some b := hb
      rw [runImgOp, imgStatus_claim, hf, Option.map_some'] at hb2
      injection hb2 with hb3
      by_cases hmem : r0.id ∈ selImgIds s n
      · rw [if_pos hmem] at hb3
        have hp := imgStatus_of_mem_sel s n i hn (hid ▸ hmem)
        rw [ha] at hp
        exact ⟨Option.some.inj hp, hb3.symm⟩
      · rw [if_neg hmem] at hb3
        exact absurd (hstat.symm.trans hb3) hab
    | complete ids =>
      have hb2 : imgStatus (runImgOp s (ImgOp.complete ids)) i = some b := hb
      rw [runImgOp, imgStatus_complete, hf, Option.map_some'] at hb2
      injection hb2 with hb3
      by_cases hmem : r0.id ∈ ids
      · rw [if_pos hmem] at hb3
        have hall := List.all_eq_true.mp hg1 r0.id hmem
        have hproc : imgStatus s r0.id = some "processing" := by
          simpa using hall
        rw [hid, ha] at hproc
        exact ⟨Option.some.inj hproc, hb3.symm⟩
      · rw [if_neg hmem] at hb3
        exact absurd (hstat.symm.trans hb3) hab
    | reset =>
      have hb2 : imgStatus (runImgOp s ImgOp.reset) i = some b := hb
      rw [runImgOp, imgStatus_reset, hf, Option.map_some'] at hb2
      injection hb2 with hb3
      by_cases hproc : r0.processing_status = "processing"
      · rw [if_pos hproc] at hb3
        exact ⟨by rw [← hstat, hproc], hb3.symm⟩
      · rw [if_neg hproc] at hb3
        exact absurd (hstat.symm.trans hb3) hab

/-- Witness for C3 (amended) at a concrete guarded trace:
claim, complete the claimed row, reset the rest. -/
theorem guarded_lifecycle_monotone_witness :
    ((threePendingStore.images.map (fun r => r.id)).Nodup ∧
     imgGuarded threePendingStore
       [ImgOp.claim 2, ImgOp.complete [1], ImgOp.reset] = true) ∧
    imgStepsAllowed threePendingStore
      [ImgOp.claim 2, ImgOp.complete [1], ImgOp.reset] :=
  ⟨⟨by decide, by decide⟩,
   guarded_lifecycle_monotone threePendingStore
     [ImgOp.claim 2, ImgOp.complete [1], ImgOp.reset] (by decide) (by decide)⟩

/-- The detection table a detection claim commits: the selected ids are
flipped to `'processing'`. -/
theorem claimDet_snd_detections (s : Store) (n : Nat) :
    ((claim_detections_for_analysis s n).2).detections =
      s.detections.map (fun r =>
        if r.id ∈ selDetIds s n then { r with clothing_status := "processing" }
        else r) := by
  unfold claim_detections_for_analysis
  by_cases h : pendingDetectionRows s n = []
  · simp [selDetIds, h]
  · simp only [h, if_neg (by simpa using h)]
    rfl

/-- The pairs a detection claim hands back: id and crop path of the
just-updated rows with the selected ids. -/
theorem claimDet_fst (s : Store) (n : Nat) :
    (claim_detections_for_analysis s n).1 =
      ((s.detections.map (fun r =>
        if r.id ∈ selDetIds s n then { r with clothing_status := "processing" }
        else r)).filter (fun r => decide (r.id ∈ selDetIds s n))).map
        (fun r => (r.id, r.crop_path)) := by
  unfold claim_detections_for_analysis
  by_cases h : pendingDetectionRows s n = []
  · simp [selDetIds, h]
  · simp only [h, if_neg (by simpa using h)]
    rfl

/-- Detection claims do not add, remove or renumber detection rows. -/
theorem detIds_claim (s : Store) (n : Nat) :
    ((claim_detections_for_analysis s n).2).detections.map (fun r => r.id) =
      s.detections.map (fun r => r.id) := by
  rw [claimDet_snd_detections]
  exact map_map_fix _ _ _ (fun a => by split <;> rfl)

/-- Detection completions do not add, remove or renumber detection rows. -/
theorem detIds_complete (s : Store) (ids : List Nat) :
    (mark_clothing_analysis_complete s ids).detections.map (fun r => r.id) =
      s.detections.map (fun r => r.id) := by
  unfold mark_clothing_analysis_complete
  split
  · rfl
  · exact map_map_fix _ _ _ (fun a => by split <;> rfl)

/-- Pointwise effect of a detection claim on statuses. -/
theorem detStatus_claimDet (s : Store) (n : Nat) (i : Nat) :
    detStatus (claim_detections_for_analysis s n).2 i =
      (s.detections.find? (fun r => r.id == i)).map
        (fun r => if r.id ∈ selDetIds s n then "processing"
                  else r.clothing_status) := by
  rw [detStatus, claimDet_snd_detections,
    find?_map_fix_id s.detections _ (fun r => r.id)
      (fun a => by split <;> rfl) i,
    Option.map_map]
  cases s.detections.find? (fun r => r.id == i) with
  | none => rfl
  | some r =>
    simp only [Option.map_some', Function.comp]
    split <;> rfl

/-- Pointwise effect of `mark_clothing_analysis_complete` on statuses. -/
theorem detStatus_completeDet (s : Store) (ids : List Nat) (i : Nat) :
    detStatus (mark_clothing_analysis_complete s ids) i =
      (s.detections.find? (fun r => r.id == i)).map
        (fun r => if r.id ∈ ids then "completed" else r.clothing_status) := by
  unfold mark_clothing_analysis_complete
  split
  · rename_i h
    subst h
    rw [detStatus]
    cases s.detections.find? (fun r => r.id == i) <;> simp
  · rw [detStatus,
      find?_map_fix_id s.detections _ (fun r => r.id)
        (fun a => by split <;> rfl) i,
      Option.map_map]
    cases s.detections.find? (fun r => r.id == i) with
    | none => rfl
    | some r =>
      simp only [Option.map_some', Function.comp]
      split <;> rfl

/-- A detection claim never changes any row's `crop_path`. -/
theorem detCrop_claimDet (s : Store) (n : Nat) (i : Nat) :
    detCrop (claim_detections_for_analysis s n).2 i = detCrop s i := by
  rw [detCrop, detCrop, claimDet_snd_detections,
    find?_map_fix_id s.detections _ (fun r => r.id)
      (fun a => by split <;> rfl) i,
    Option.map_map]
  cases s.detections.find? (fun r => r.id == i) with
  | none => rfl
  | some r =>
    simp only [Option.map_some', Function.comp]
    split <;> rfl

/-- A detection completion never changes any row's `crop_path`. -/
theorem detCrop_completeDet (s : Store) (ids : List Nat) (i : Nat) :
    detCrop (mark_clothing_analysis_complete s ids) i = detCrop s i := by
  unfold mark_clothing_analysis_complete
  split
  · rfl
  · rw [detCrop, detCrop,
      find?_map_fix_id s.detections _ (fun r => r.id)
        (fun a => by split <;> rfl) i,
      Option.map_map]
    cases s.detections.find? (fun r => r.id == i) with
    | none => rfl
    | some r =>
      simp only [Option.map_some', Function.comp]
      split <;> rfl

/-- Rows picked by the detection claim's SELECT are pending rows of the
table with a non-NULL crop path. -/
theorem pendingDetectionRows_spec (s : Store) (n : Nat) (r : DetectionRow)
    (h : r ∈ pendingDetectionRows s n) :
    r ∈ s.detections ∧ r.clothing_status = "pending" ∧ r.crop_path ≠ none := by
  have h1 := List.mem_of_mem_take h
  rw [List.mem_filter, Bool.and_eq_true] at h1
  refine ⟨h1.1, by simpa using h1.2.1, ?_⟩
  intro heq
  have h2 := h1.2.2
  rw [heq] at h2
  simp at h2

/-- Ids not selected by a detection claim keep their status. -/
theorem detStatus_claimDet_not_mem (s : Store) (n : Nat) (i : Nat)
    (h : i ∉ selDetIds s n) :
    detStatus (claim_detections_for_analysis s n).2 i = detStatus s i := by
  rw [detStatus_claimDet, detStatus]
  cases hf : s.detections.find? (fun r => r.id == i) with
  | none => rfl
  | some r0 =>
    have hid : r0.id = i := by simpa using List.find?_some hf
    rw [Option.map_some', Option.map_some', hid, if_neg h]

/-- Ids not named by a detection completion keep their status. -/
theorem detStatus_completeDet_not_mem (s : Store) (ids : List Nat) (i : Nat)
    (h : i ∉ ids) :
    detStatus (mark_clothing_analysis_complete s ids) i = detStatus s i := by
  rw [detStatus_completeDet, detStatus]
  cases hf : s.detections.find? (fun r => r.id == i) with
  | none => rfl
  | some r0 =>
    have hid : r0.id = i := by simpa using List.find?_some hf
    rw [Option.map_some', Option.map_some', hid, if_neg h]

/-- A pending detection with a NULL crop path survives any protocol-
respecting detection trace unchanged in status. -/
theorem null_crop_stays_pending_steps (ops : List DetOp) :
    ∀ s i, (s.detections.map (fun r => r.id)).Nodup →
      detStatus s i = some "pending" → detCrop s i = some none →
      detProtocol s ops = true →
      detStatus (runDetOps s ops) i = some "pending" := by
  induction ops with
  | nil =>
    intro s i _ hp _ _
    exact hp
  | cons op ops ih =>
    intro s i hn hp hc hg
    simp only [detProtocol, Bool.and_eq_true] at hg
    obtain ⟨hg1, hg2⟩ := hg
    simp only [runDetOps]
    cases op with
    | claim n =>
      have hnot : i ∉ selDetIds s n := by
        intro hmem
        obtain ⟨rs, hrs, hrsid⟩ := List.mem_map.mp hmem
        obtain ⟨hm, _, hcrop⟩ := pendingDetectionRows_spec s n rs hrs
        rw [detCrop, ← hrsid,
          find?_eq_of_mem_nodup s.detections (fun r => r.id) hn rs hm] at hc
        exact hcrop (Option.some.inj hc)
      exact ih (runDetOp s (DetOp.claim n)) i
        (by rw [runDetOp, detIds_claim]; exact hn)
        (by rw [runDetOp, detStatus_claimDet_not_mem s n i hnot]; exact hp)
        (by rw [runDetOp, detCrop_claimDet]; exact hc)
        hg2
    | complete ids =>
      have hnot : i ∉ ids := by
        intro hmem
        have h2 := List.all_eq_true.mp hg1 i hmem
        rw [hp] at h2
        simp at h2
      exact ih (runDetOp s (DetOp.complete ids)) i
        (by rw [runDetOp, detIds_complete]; exact hn)
        (by rw [runDetOp, detStatus_completeDet_not_mem s ids i hnot]; exact hp)
        (by rw [runDetOp, detCrop_completeDet]; exact hc)
        hg2

/-- C10: `claim_detections_for_analysis` only ever returns rows that were
`'pending'` with a non-NULL `crop_path`; consequently a detection whose
`crop_path` is NULL stays `'pending'` forever under any
protocol-respecting sequence of detection claims and completions. -/
theorem claim_detections_respect_crop (s : Store) (n : Nat)
    (hn : (s.detections.map (fun r => r.id)).Nodup) :
    (∀ p ∈ (claim_detections_for_analysis s n).1,
      p.2 ≠ none ∧ detStatus s p.1 = some "pending") ∧
    (∀ d ∈ s.detections, d.crop_path = none → d.clothing_status = "pending" →
      ∀ ops, detProtocol s ops = true →
        detStatus (runDetOps s ops) d.id = some "pending") := by
  constructor
  · intro p hp
    rw [claimDet_fst] at hp
    obtain ⟨r, hr, rfl⟩ := List.mem_map.mp hp
    simp only [List.mem_filter, decide_eq_true_iff] at hr
    obtain ⟨hrm, hrid⟩ := hr
    obtain ⟨r0, hr0, rfl⟩ := List.mem_map.mp hrm
    have hid0 : (if r0.id ∈ selDetIds s n
        then { r0 with clothing_status := "processing" } else r0).id = r0.id := by
      split <;> rfl
    have hcrop0 : (if r0.id ∈ selDetIds s n
        then { r0 with clothing_status := "processing" } else r0).crop_path =
        r0.crop_path := by
      split <;> rfl
    rw [hid0] at hrid
    obtain ⟨rs, hrs, hrsid⟩ := List.mem_map.mp hrid
    obtain ⟨hm, hpend, hcrop⟩ := pendingDetectionRows_spec s n rs hrs
    have hrseq : rs = r0 := List.inj_on_of_nodup_map hn hm hr0 hrsid
    subst hrseq
    refine ⟨by rw [hcrop0]; exact hcrop, ?_⟩
    rw [hid0, detStatus,
      find?_eq_of_mem_nodup s.detections (fun r => r.id) hn rs hm]
    simp [hpend]
  · intro d hd hcrop hpend ops hg
    refine null_crop_stays_pending_steps ops s d.id hn ?_ ?_ hg
    · rw [detStatus,
        find?_eq_of_mem_nodup s.detections (fun r => r.id) hn d hd]
      simp [hpend]
    · rw [detCrop,
        find?_eq_of_mem_nodup s.detections (fun r => r.id) hn d hd]
      simp [hcrop]

/-- Witness for C10 at the two-detection store: the claim returns only
the row with a crop file, and the NULL-crop row survives a full
claim-then-complete round still pending. -/
theorem claim_detections_respect_crop_witness :
    ((mixedCropStore.detections.map (fun r => r.id)).Nodup ∧
     detProtocol mixedCropStore [DetOp.claim 5, DetOp.complete [2]] = true) ∧
    ((∀ p ∈ (claim_detections_for_analysis mixedCropStore 5).1,
        p.2 ≠ none ∧ detStatus mixedCropStore p.1 = some "pending") ∧
     detStatus (runDetOps mixedCropStore
        [DetOp.claim 5, DetOp.complete [2]]) 1 = some "pending") := by
  refine ⟨⟨by decide, by decide⟩, ?_⟩
  have h := claim_detections_respect_crop mixedCropStore 5 (by decide)
  exact ⟨h.1, h.2 ⟨1, some 1, some 500, some 90, none, none, "pending"⟩
    (by decide) rfl rfl [DetOp.claim 5, DetOp.complete [2]] (by decide)⟩

/-- `CREATE TABLE IF NOT EXISTS` always yields a live table. -/
theorem createTIN_some (t : TableState) (cols : List String) :
    ∃ xs, createTableIfNotExists t cols = some xs := by
  cases t with
  | none => exact ⟨cols, rfl⟩
  | some existing => exact ⟨existing, rfl⟩

/-- On a live table the guarded migration step never errors: it returns a
live table containing the new column and every previous column. -/
theorem ensureCol_some (xs : List String) (col : String) :
    ∃ ys, ensureCol (some xs) col = Except.ok (some ys) ∧ col ∈ ys ∧
      ∀ c ∈ xs, c ∈ ys := by
  by_cases h : col ∈ xs
  · exact ⟨xs, by simp [ensureCol, tableCols, h, pure, Except.pure], h,
      fun c hc => hc⟩
  · refine ⟨xs ++ [col], ?_, by simp, fun c hc => List.mem_append_left _ hc⟩
    simp [ensureCol, tableCols, h, alterTableAddColumn]

/-- Once the column is present, the migration step is the identity. -/
theorem ensureCol_mem (xs : List String) (col : String) (h : col ∈ xs) :
    ensureCol (some xs) col = Except.ok (some xs) := by
  simp [ensureCol, tableCols, h, pure, Except.pure]

/-- Sequencing after a successful step applies the continuation. -/
theorem exceptBind_ok {α β : Type} (a : α) (f : α → Except String β) :
    (Except.ok a >>= f) = f a := rfl

/-- On `Except`, `pure` is `ok`. -/
theorem exceptPure_ok {α : Type} (a : α) :
    (pure a : Except String α) = Except.ok a := rfl

/-- C7: `create_tables` never errors, and running it a second time from
the state the first run produced changes nothing and raises no error —
tables are created only if absent and each missing column is added at
most once. -/
theorem create_tables_idempotent (sch : Schema) :
    ∃ sch1, create_tables sch = Except.ok sch1 ∧
      create_tables sch1 = Except.ok sch1 := by
  obtain ⟨ci, hci⟩ := createTIN_some sch.cities citiesColumns
  obtain ⟨im0, him0⟩ := createTIN_some sch.mapillary_images imagesColumns
  obtain ⟨im1, him1, himP, _⟩ := ensureCol_some im0 "processing_status"
  obtain ⟨de0, hde0⟩ := createTIN_some sch.mapillary_detections detectionsColumns
  obtain ⟨de1, hde1, hdeC, _⟩ := ensureCol_some de0 "crop_path"
  obtain ⟨cl, hcl⟩ := createTIN_some sch.clothing_measurements clothingColumns
  by_cases hcs : "clothing_status" ∈ de1
  · refine ⟨⟨some ci, some im1, some de1, some cl, sch.idx_clothing_status⟩,
      ?_, ?_⟩
    · unfold create_tables
      simp [hci, him0, him1, hde0, hde1, hcl, tableCols, hcs,
        exceptBind_ok, exceptPure_ok]
    · unfold create_tables
      simp [createTableIfNotExists, ensureCol_mem im1 "processing_status" himP,
        ensureCol_mem de1 "crop_path" hdeC, tableCols, hcs,
        exceptBind_ok, exceptPure_ok]
  · have halter : alterTableAddColumn (some de1) "clothing_status" =
        Except.ok (some (de1 ++ ["clothing_status"])) := by
      simp [alterTableAddColumn, hcs]
    have hcs2 : "clothing_status" ∈ de1 ++ ["clothing_status"] := by simp
    refine ⟨⟨some ci, some im1, some (de1 ++ ["clothing_status"]), some cl,
      true⟩, ?_, ?_⟩
    · unfold create_tables
      simp [hci, him0, him1, hde0, hde1, hcl, tableCols, hcs, halter,
        exceptBind_ok, exceptPure_ok]
    · unfold create_tables
      simp [createTableIfNotExists, ensureCol_mem im1 "processing_status" himP,
        ensureCol_mem (de1 ++ ["clothing_status"]) "crop_path"
          (List.mem_append_left _ hdeC),
        tableCols, hcs2, exceptBind_ok, exceptPure_ok]

end PipelineDB
